import Mathlib

/-!
# frequensea: the sample processor and device manager of `src/nrf.c`

A shallow embedding of `_nrf_process_sample_block`, `_nrf_dummy_receive_loop`,
`_nrf_rtlsdr_start`, `_nrf_hackrf_start`, `_nrf_dummy_start` and `nrf_device_new`.

Conventions of the embedding.

* C arrays owned by the device (`samples`, `iq`, `fft_in`, `fft_out`) are maps from the
  index to the stored value; the waterfall `fft` is a list, so that its size is part of
  what is proved.
* `float` and `double` values are the exact rationals they stand for: `vi / 256.0f` is
  the rational `vi / 256`. Rounding is not part of the embedding. The histogram `iq` holds
  whole numbers only and is counted in `Nat`.
* Memory that is read through a pointer is a list of bytes; a read outside it makes the
  function return `none`. A null pointer is the empty list.
* `exit(EXIT_FAILURE)` is `none`.
* Counters, indices and lengths are natural numbers; the C types of the device fields are
  declared in `nrf.h`.
* `nrf.h`, the vendor libraries (librtlsdr, libhackrf, fftw) and the file system are not
  part of the sources: their constants and results are parameters.
-/

namespace Frequensea

/-- Constants that `nrf.c` takes from `nrf.h`. -/
structure nrf_h where
  FFT_SIZE : Nat
  FFT_HISTORY_SIZE : Nat
  NRF_BUFFER_LENGTH : Nat

/-- The variant tag `nrf_device_type` of `nrf.h`. -/
inductive nrf_device_type where
  | NRF_DEVICE_DUMMY
  | NRF_DEVICE_RTLSDR
  | NRF_DEVICE_HACKRF
deriving DecidableEq

/-- The `vec3` of three floats. -/
structure vec3 where
  x : ℚ
  y : ℚ
  z : ℚ
deriving DecidableEq

/-- `vec3_init(x, y, z)`. -/
def vec3_init (x y z : ℚ) : vec3 := ⟨x, y, z⟩

/-- The fields of `nrf_device` that `nrf.c` reads and writes. `buffer` is `none` for a
null pointer. -/
structure nrf_device where
  device_type : nrf_device_type
  receiving : Bool
  buffer : Option (List (Fin 256))
  dummy_block_length : Nat
  dummy_block_index : Nat
  samples : Nat → ℚ
  iq : Nat → Nat
  fft_in : Nat → ℚ × ℚ
  fft_out : Nat → ℚ × ℚ
  fft : List vec3

/-- The array assignment `a[i] = v`. -/
def store {α : Type} (a : Nat → α) (i : Nat) (v : α) : Nat → α :=
  fun k => if k = i then v else a k

/-- Lines 48-51 of `nrf.c`, for one of `vi`, `vq`: the byte is shifted by 128 modulo 256
when the device is a HackRF or the dummy, and left alone otherwise. -/
def recenter (t : nrf_device_type) (v : Nat) : Nat :=
  if t = nrf_device_type.NRF_DEVICE_HACKRF ∨ t = nrf_device_type.NRF_DEVICE_DUMMY then
    (v + 128) % 256
  else v

/-- The variables the `for` loop of `_nrf_process_sample_block` carries from one pass to
the next: `j`, `ii` and the device. -/
structure sample_loop_state where
  j : Nat
  ii : Nat
  device : nrf_device

/-- One pass of the `for` loop of `_nrf_process_sample_block` (lines 45-62), at loop
variable `i`. `none` when `buffer[i]` or `buffer[i + 1]` lies outside the memory behind
`buffer`. -/
def sample_block_body (length : Nat) (buffer : List (Fin 256)) (s : sample_loop_state)
    (i : Nat) : Option sample_loop_state :=
  match buffer[i]?, buffer[i + 1]? with
  | some bi, some bq =>
    let device := s.device
    let t : ℚ := (i : ℚ) / (length : ℚ)
    let vi := recenter device.device_type bi.val
    let vq := recenter device.device_type bq.val
    let samples := store device.samples s.j ((vi : ℚ) / 256)
    let samples := store samples (s.j + 1) ((vq : ℚ) / 256)
    let samples := store samples (s.j + 2) t
    let iq_index := vi * 256 + vq
    let iq := store device.iq iq_index (device.iq iq_index + 1)
    let fft_in := store device.fft_in s.ii ((bi.val : ℚ) / 255, (bq.val : ℚ) / 255)
    some ⟨s.j + 3, s.ii + 1, { device with samples := samples, iq := iq, fft_in := fft_in }⟩
  | _, _ => none

/-- The loop `for (int i = 0; i < length; i += 2)` of `_nrf_process_sample_block`, entered
with loop variable `i` and state `s`. Each pass uses one unit of `fuel`, and so does the
last test of `i < length`; `none` when the fuel runs out or a pass reads outside
`buffer`. -/
def sample_block_for (length : Nat) (buffer : List (Fin 256)) :
    Nat → Nat → sample_loop_state → Option sample_loop_state
  | 0, _, _ => none
  | fuel + 1, i, s =>
    if i < length then
      match sample_block_body length buffer s i with
      | some s' => sample_block_for length buffer fuel (i + 2) s'
      | none => none
    else some s

/-- The state after the first `n` passes of the same loop, started in state `s`; pass
number `n` (counted from 0) runs with `i = 2 * n`. Used to reason about
`sample_block_for`. -/
def sample_block_loop (length : Nat) (buffer : List (Fin 256)) (s : sample_loop_state) :
    Nat → Option sample_loop_state
  | 0 => some s
  | n + 1 =>
    match sample_block_loop length buffer s n with
    | some s' => sample_block_body length buffer s' (2 * n)
    | none => none

/-- The call `memcpy(a + dst, a + src, n)` inside one array `a`, after its first `n`
elements are copied: element by element from the lowest address up, each read taking what
the array holds at that moment. For ranges that do not overlap this is the copy C
defines. In the call of line 66 the destination starts one row after the source, so the
ranges overlap as soon as the waterfall has more than two rows; C leaves that call
undefined, and the ascending copy then reads rows it has already overwritten. -/
def memcpy {α : Type} (a : List α) (dst src : Nat) : Nat → List α
  | 0 => a
  | n + 1 =>
    let a' := memcpy a dst src n
    match a'[src + n]? with
    | some v => a'.set (dst + n) v
    | none => a'

/-- The first `n` passes of the loop of lines 68-72, which sets the first line of the
waterfall from `fft_out`. -/
def first_line_loop (c : nrf_h) (out : Nat → ℚ × ℚ) (fft : List vec3) : Nat → List vec3
  | 0 => fft
  | n + 1 =>
    let t : ℚ := (n : ℚ) / (c.FFT_SIZE : ℚ)
    (first_line_loop c out fft n).set n (vec3_init (out n).1 (out n).2 t)

/-- The function `_nrf_process_sample_block(device, buffer, length)` (lines 40-74).
`fftw_execute` is the planned transform of fftw: from the content of `fft_in` to the new
content of `fft_out`. The loop gets `length + 1` units of fuel, more than its
`(length + 1) / 2` passes need. The C function always returns 0; the result here is the
device it leaves, or `none` after a read outside `buffer`. -/
def _nrf_process_sample_block (c : nrf_h) (fftw_execute : (Nat → ℚ × ℚ) → Nat → ℚ × ℚ)
    (device : nrf_device) (buffer : List (Fin 256)) (length : Nat) : Option nrf_device :=
  let device := { device with iq := fun _ => 0 }
  match sample_block_for length buffer (length + 1) 0 ⟨0, 0, device⟩ with
  | none => none
  | some s =>
    let device := s.device
    let device := { device with fft_out := fftw_execute device.fft_in }
    let device := { device with
      fft := memcpy device.fft c.FFT_SIZE 0 (c.FFT_SIZE * (c.FFT_HISTORY_SIZE - 1)) }
    let device := { device with fft := first_line_loop c device.fft_out device.fft c.FFT_SIZE }
    some device

/-- The byte offset into `device->buffer` that line 107 computes. -/
def dummy_block_offset (c : nrf_h) (device : nrf_device) : Nat :=
  device.dummy_block_index * c.NRF_BUFFER_LENGTH

/-- One pass of the `while` loop of `_nrf_dummy_receive_loop` (lines 107-112); the sleep
of line 113 changes no state. -/
def dummy_receive_pass (c : nrf_h) (fftw_execute : (Nat → ℚ × ℚ) → Nat → ℚ × ℚ)
    (device : nrf_device) : Option nrf_device :=
  let memory := match device.buffer with
    | some m => m
    | none => []
  let buffer := memory.drop (dummy_block_offset c device)
  match _nrf_process_sample_block c fftw_execute device buffer c.NRF_BUFFER_LENGTH with
  | none => none
  | some device =>
    let device := { device with dummy_block_index := device.dummy_block_index + 1 }
    if device.dummy_block_index ≥ device.dummy_block_length then
      some { device with dummy_block_index := 0 }
    else some device

/-- The loop `while (device->receiving)` of `_nrf_dummy_receive_loop`, observed for `n`
evaluations of its condition. The result holds the byte offsets into `device->buffer` at
which the passes handed a block to the sample processor (line 107), oldest first, and the
device. The flag `receiving` is only cleared from outside, by `nrf_device_free`. -/
def _nrf_dummy_receive_loop (c : nrf_h) (fftw_execute : (Nat → ℚ × ℚ) → Nat → ℚ × ℚ)
    (device : nrf_device) : Nat → Option (List Nat × nrf_device)
  | 0 => some ([], device)
  | n + 1 =>
    match _nrf_dummy_receive_loop c fftw_execute device n with
    | none => none
    | some (log, d) =>
      if d.receiving then
        match dummy_receive_pass c fftw_execute d with
        | none => none
        | some d' => some (log ++ [dummy_block_offset c d], d')
      else some (log, d)

/-- What the vendor libraries and the file system answer: the status of every call of
librtlsdr and libhackrf that the start functions make (0 is success), and the content
`fopen` finds under a file name, if any. -/
structure vendor where
  rtlsdr_open : Int
  rtlsdr_set_sample_rate : Int
  rtlsdr_set_tuner_gain_mode : Int
  rtlsdr_set_agc_mode : Int
  rtlsdr_set_center_freq : Int
  rtlsdr_reset_buffer : Int
  hackrf_init : Int
  hackrf_open : Int
  hackrf_set_freq : Int
  hackrf_set_sample_rate : Int
  hackrf_set_amp_enable : Int
  hackrf_set_lna_gain : Int
  hackrf_set_vga_gain : Int
  hackrf_start_rx : Int
  fopen : String → Option (List (Fin 256))

/-- The function `_nrf_rtlsdr_start` (lines 118-151): the returned status and the device,
or `none` when a status check exits the process. -/
def _nrf_rtlsdr_start (c : nrf_h) (v : vendor) (device : nrf_device) :
    Option (Int × nrf_device) :=
  if v.rtlsdr_open ≠ 0 then some (v.rtlsdr_open, device)
  else
    let device := { device with
      device_type := nrf_device_type.NRF_DEVICE_RTLSDR
      buffer := some (List.replicate c.NRF_BUFFER_LENGTH 0) }
    if v.rtlsdr_set_sample_rate ≠ 0 then none
    else if v.rtlsdr_set_tuner_gain_mode ≠ 0 then none
    else if v.rtlsdr_set_agc_mode ≠ 0 then none
    else if v.rtlsdr_set_center_freq ≠ 0 then none
    else if v.rtlsdr_reset_buffer ≠ 0 then none
    else some (0, { device with receiving := true })

/-- The function `_nrf_hackrf_start` (lines 153-188): the returned status and the device,
or `none` when a status check exits the process. -/
def _nrf_hackrf_start (v : vendor) (device : nrf_device) : Option (Int × nrf_device) :=
  if v.hackrf_init ≠ 0 then none
  else if v.hackrf_open ≠ 0 then some (v.hackrf_open, device)
  else
    let device := { device with device_type := nrf_device_type.NRF_DEVICE_HACKRF }
    if v.hackrf_set_freq ≠ 0 then none
    else if v.hackrf_set_sample_rate ≠ 0 then none
    else if v.hackrf_set_amp_enable ≠ 0 then none
    else if v.hackrf_set_lna_gain ≠ 0 then none
    else if v.hackrf_set_vga_gain ≠ 0 then none
    else
      let device := { device with receiving := true }
      if v.hackrf_start_rx ≠ 0 then none
      else some (0, device)

/-- The function `_nrf_dummy_start` (lines 190-213). `data_file` is `none` for a null
pointer. -/
def _nrf_dummy_start (c : nrf_h) (v : vendor) (device : nrf_device)
    (data_file : Option String) : Int × nrf_device :=
  let device := { device with device_type := nrf_device_type.NRF_DEVICE_DUMMY }
  let device :=
    match data_file with
    | some name =>
      match v.fopen name with
      | some content =>
        { device with
          buffer := some content
          dummy_block_length := content.length / c.NRF_BUFFER_LENGTH
          dummy_block_index := 0 }
      | none => device
    | none => device
  (0, { device with receiving := true })

/-- The backends, to record which start function `nrf_device_new` called. -/
inductive backend where
  | rtlsdr
  | hackrf
  | dummy
deriving DecidableEq

/-- The device right after lines 221-227 of `nrf_device_new`: `calloc` zeroes every field,
`samples` and `fft` are cleared, `fft_in` and `fft_out` come from `fftw_malloc` with
unspecified content. `tag0` is the enumerator of `nrf_device_type` whose value is 0. -/
def nrf_device_alloc (c : nrf_h) (tag0 : nrf_device_type) (fft_in fft_out : Nat → ℚ × ℚ) :
    nrf_device :=
  { device_type := tag0
    receiving := false
    buffer := none
    dummy_block_length := 0
    dummy_block_index := 0
    samples := fun _ => 0
    iq := fun _ => 0
    fft_in := fft_in
    fft_out := fft_out
    fft := List.replicate (c.FFT_SIZE * c.FFT_HISTORY_SIZE) (vec3_init 0 0 0) }

/-- The function `nrf_device_new` (lines 219-242): the start functions it called, in
order, and the device it returns, or `none` when a status check exits the process. The
threads that the start functions spawn are not run here. -/
def nrf_device_new (c : nrf_h) (v : vendor) (tag0 : nrf_device_type)
    (fft_in fft_out : Nat → ℚ × ℚ) (data_file : Option String) :
    List backend × Option nrf_device :=
  let device := nrf_device_alloc c tag0 fft_in fft_out
  match _nrf_rtlsdr_start c v device with
  | none => ([backend.rtlsdr], none)
  | some (status, device) =>
    if status ≠ 0 then
      match _nrf_hackrf_start v device with
      | none => ([backend.rtlsdr, backend.hackrf], none)
      | some (status, device) =>
        if status ≠ 0 then
          let (_, device) := _nrf_dummy_start c v device data_file
          ([backend.rtlsdr, backend.hackrf, backend.dummy], some device)
        else ([backend.rtlsdr, backend.hackrf], some device)
    else ([backend.rtlsdr], some device)

/-- The value the loop of `_nrf_process_sample_block` writes to `samples[m]`: slot
`3 k` holds `vi / 256`, slot `3 k + 1` holds `vq / 256` and slot `3 k + 2` holds
`i / length` with `i = 2 k`. -/
def sample_value (t : nrf_device_type) (length : Nat) (buffer : List (Fin 256)) (m : Nat) : ℚ :=
  if m % 3 = 0 then (recenter t (buffer.getD (2 * (m / 3)) 0).val : ℚ) / 256
  else if m % 3 = 1 then (recenter t (buffer.getD (2 * (m / 3) + 1) 0).val : ℚ) / 256
  else ((2 * (m / 3) : Nat) : ℚ) / (length : ℚ)

/-- The histogram cell `iq_index` of pair `k` (line 56). -/
def cell_index (t : nrf_device_type) (buffer : List (Fin 256)) (k : Nat) : Nat :=
  recenter t (buffer.getD (2 * k) 0).val * 256 + recenter t (buffer.getD (2 * k + 1) 0).val

/-- The device the loop of `_nrf_process_sample_block` leaves after `n` passes over
readable pairs, written out field by field. -/
def after_passes (length : Nat) (buffer : List (Fin 256)) (d : nrf_device) (n : Nat) :
    nrf_device :=
  { d with
    samples := fun m => if m < 3 * n then sample_value d.device_type length buffer m
      else d.samples m
    iq := fun cell => d.iq cell +
      (List.range n).countP (fun k => decide (cell_index d.device_type buffer k = cell))
    fft_in := fun k => if k < n then
        (((buffer.getD (2 * k) 0).val : ℚ) / 255, ((buffer.getD (2 * k + 1) 0).val : ℚ) / 255)
      else d.fft_in k }

/-- A header with small constants, to run the functions on short blocks. -/
def small_h : nrf_h := { FFT_SIZE := 2, FFT_HISTORY_SIZE := 3, NRF_BUFFER_LENGTH := 4 }

/-- A stand-in for the transform of fftw in evaluations: it copies its input. -/
def copy_transform (fft_in : Nat → ℚ × ℚ) : Nat → ℚ × ℚ := fft_in

/-- A device of the given variant with every array cleared, no block buffer, and a
waterfall of the size `small_h` asks for. -/
def cleared_device (t : nrf_device_type) : nrf_device :=
  { device_type := t
    receiving := true
    buffer := none
    dummy_block_length := 0
    dummy_block_index := 0
    samples := fun _ => 0
    iq := fun _ => 0
    fft_in := fun _ => (0, 0)
    fft_out := fun _ => (0, 0)
    fft := List.replicate 6 (vec3_init 0 0 0) }

/-- A device that an earlier, longer block has left with 7 in every slot of `samples` and
5 in every cell of `iq`. -/
def stale_device : nrf_device :=
  { cleared_device nrf_device_type.NRF_DEVICE_RTLSDR with
    samples := fun _ => 7
    iq := fun _ => 5 }

/-- A device whose waterfall holds three different rows of two bins: row 0 is
(1,0,0), (2,0,0), row 1 is (3,0,0), (4,0,0) and row 2 is (5,0,0), (6,0,0). -/
def history_device : nrf_device :=
  { cleared_device nrf_device_type.NRF_DEVICE_RTLSDR with
    fft := [⟨1, 0, 0⟩, ⟨2, 0, 0⟩, ⟨3, 0, 0⟩, ⟨4, 0, 0⟩, ⟨5, 0, 0⟩, ⟨6, 0, 0⟩] }

/-- A block of two byte pairs, (255, 0) and (0, 255). -/
def unit_pairs : List (Fin 256) := [255, 0, 0, 255]

/-- A block of two byte pairs. -/
def two_pairs : List (Fin 256) := [1, 200, 130, 4]

/-- A fallback file of two blocks of `small_h` and one byte more. -/
def two_block_file : List (Fin 256) := [1, 2, 3, 4, 5, 6, 7, 8, 9]

/-- No RTLSDR and no HackRF can be opened, every other call succeeds, and `fopen` finds
the given content, if any, under every name. -/
def no_hardware (file : Option (List (Fin 256))) : vendor :=
  { rtlsdr_open := -1
    rtlsdr_set_sample_rate := 0
    rtlsdr_set_tuner_gain_mode := 0
    rtlsdr_set_agc_mode := 0
    rtlsdr_set_center_freq := 0
    rtlsdr_reset_buffer := 0
    hackrf_init := 0
    hackrf_open := -5
    hackrf_set_freq := 0
    hackrf_set_sample_rate := 0
    hackrf_set_amp_enable := 0
    hackrf_set_lna_gain := 0
    hackrf_set_vga_gain := 0
    hackrf_start_rx := 0
    fopen := fun _ => file }

/-- The dummy device that `_nrf_dummy_start` makes of a fallback file of one byte, shorter
than one block of `small_h`. -/
def short_file_device : nrf_device :=
  (_nrf_dummy_start small_h (no_hardware (some [7]))
    (cleared_device nrf_device_type.NRF_DEVICE_DUMMY) (some "short.raw")).2

theorem sample_block_loop_eq (length : Nat) (buffer : List (Fin 256)) (d : nrf_device)
    (n : Nat) (h : 2 * n ≤ buffer.length) :
    sample_block_loop length buffer ⟨0, 0, d⟩ n
      = some ⟨3 * n, n, after_passes length buffer d n⟩ := by
  induction n with
  | zero =>
    simp [sample_block_loop, after_passes]
  | succ n ih =>
    have h0 : 2 * n < buffer.length := by omega
    have h1 : 2 * n + 1 < buffer.length := by omega
    rw [sample_block_loop, ih (by omega)]
    simp only [sample_block_body, List.getElem?_eq_getElem h0, List.getElem?_eq_getElem h1]
    have e0 : buffer.getD (2 * n) 0 = buffer[2 * n] := by
      simp [List.getD_eq_getElem?_getD, List.getElem?_eq_getElem h0]
    have e1 : buffer.getD (2 * n + 1) 0 = buffer[2 * n + 1] := by
      simp [List.getD_eq_getElem?_getD, List.getElem?_eq_getElem h1]
    have f0 : buffer[2 * n]?.getD 0 = buffer[2 * n] := by
      simp [List.getElem?_eq_getElem h0]
    have f1 : buffer[2 * n + 1]?.getD 0 = buffer[2 * n + 1] := by
      simp [List.getElem?_eq_getElem h1]
    refine congrArg some ?_
    have hs : 3 * (n + 1) = 3 * n + 3 := by ring
    simp only [after_passes, hs]
    congr 1
    congr 1
    · funext m
      simp only [store]
      by_cases hm2 : m = 3 * n + 2
      · have a1 : m % 3 = 2 := by omega
        have a2 : m / 3 = n := by omega
        have a3 : m < 3 * n + 3 := by omega
        simp [sample_value, hm2, a1, a2, a3]
        subst hm2
        simp [a1, a2]
      · by_cases hm1 : m = 3 * n + 1
        · have a1 : m % 3 = 1 := by omega
          have a2 : m / 3 = n := by omega
          have a3 : m < 3 * n + 3 := by omega
          simp [sample_value, hm1, e1, f1]
          subst hm1
          simp [a1, a2, e1, f1]
        · by_cases hm0 : m = 3 * n
          · have a1 : m % 3 = 0 := by omega
            have a2 : m / 3 = n := by omega
            simp [sample_value, hm0, e0, f0]
          · have a3 : m < 3 * n ↔ m < 3 * n + 3 := by omega
            simp [hm2, hm1, hm0, a3]
    · funext cell
      simp only [store, List.range_succ, List.countP_append, List.countP_singleton, cell_index,
        e0, e1]
      by_cases hc : cell = recenter d.device_type ↑buffer[2 * n] * 256
          + recenter d.device_type ↑buffer[2 * n + 1]
      · subst hc
        simp
        rfl
      · have hc' : ¬ (recenter d.device_type ↑buffer[2 * n] * 256
          + recenter d.device_type ↑buffer[2 * n + 1] = cell) := fun h => hc h.symm
        simp [hc, hc']
    · funext k
      simp only [store]
      by_cases hk : k = n
      · subst hk
        simp [e0, e1, f0, f1]
      · have a3 : k < n ↔ k < n + 1 := by omega
        simp [hk, a3]

theorem sample_block_loop_none (length : Nat) (buffer : List (Fin 256))
    (s0 : sample_loop_state) (m : Nat) (h : sample_block_loop length buffer s0 m = none)
    (j : Nat) : sample_block_loop length buffer s0 (m + j) = none := by
  induction j with
  | zero => exact h
  | succ j ih =>
    show sample_block_loop length buffer s0 ((m + j) + 1) = none
    simp only [sample_block_loop, ih]

theorem sample_block_for_eq_loop (length : Nat) (buffer : List (Fin 256))
    (s0 : sample_loop_state) (fuel : Nat) :
    ∀ (m : Nat) (s : sample_loop_state), m ≤ (length + 1) / 2 →
      (length + 1) / 2 - m < fuel → sample_block_loop length buffer s0 m = some s →
      sample_block_for length buffer fuel (2 * m) s
        = sample_block_loop length buffer s0 ((length + 1) / 2) := by
  induction fuel with
  | zero =>
    intro m s _ hf _
    omega
  | succ fuel ih =>
    intro m s hm hf hs
    have hstep : sample_block_loop length buffer s0 (m + 1)
        = sample_block_body length buffer s (2 * m) := by
      simp only [sample_block_loop, hs]
    by_cases hi : 2 * m < length
    · have hm1 : m + 1 ≤ (length + 1) / 2 := by omega
      simp only [sample_block_for, hi, if_true]
      cases hb : sample_block_body length buffer s (2 * m) with
      | none =>
        rw [hb] at hstep
        have := sample_block_loop_none length buffer s0 (m + 1) hstep ((length + 1) / 2 - (m + 1))
        rw [Nat.add_sub_cancel' hm1] at this
        simp only [this]
      | some s' =>
        rw [hb] at hstep
        have e : 2 * m + 2 = 2 * (m + 1) := by ring
        simp only [e]
        exact ih (m + 1) s' hm1 (by omega) hstep
    · have hmM : m = (length + 1) / 2 := by omega
      simp only [sample_block_for, hi, if_false]
      rw [← hmM, hs]

theorem process_sample_block_eq (c : nrf_h) (fftw_execute : (Nat → ℚ × ℚ) → Nat → ℚ × ℚ)
    (d : nrf_device) (buffer : List (Fin 256)) (length : Nat)
    (h : 2 * ((length + 1) / 2) ≤ buffer.length) :
    _nrf_process_sample_block c fftw_execute d buffer length
      = some { after_passes length buffer { d with iq := fun _ => 0 } ((length + 1) / 2) with
          fft_out := fftw_execute
            (after_passes length buffer { d with iq := fun _ => 0 } ((length + 1) / 2)).fft_in
          fft := first_line_loop c
            (fftw_execute
              (after_passes length buffer { d with iq := fun _ => 0 } ((length + 1) / 2)).fft_in)
            (memcpy d.fft c.FFT_SIZE 0 (c.FFT_SIZE * (c.FFT_HISTORY_SIZE - 1))) c.FFT_SIZE } := by
  have hfor := sample_block_for_eq_loop length buffer ⟨0, 0, { d with iq := fun _ => 0 }⟩
    (length + 1) 0 _ (Nat.zero_le _) (by omega) rfl
  simp only [_nrf_process_sample_block]
  rw [hfor, sample_block_loop_eq length buffer _ _ h]
  rfl

theorem recenter_lt (t : nrf_device_type) (v : Nat) (hv : v < 256) : recenter t v < 256 := by
  unfold recenter
  split
  · exact Nat.mod_lt _ (by decide)
  · exact hv

theorem recenter_eq (t : nrf_device_type) (v : Nat) :
    recenter t v = if t = nrf_device_type.NRF_DEVICE_RTLSDR then v else (v + 128) % 256 := by
  cases t <;> simp [recenter]

theorem cell_index_lt (t : nrf_device_type) (buffer : List (Fin 256)) (k : Nat) :
    cell_index t buffer k < 256 * 256 := by
  have h1 := recenter_lt t (buffer.getD (2 * k) 0).val (Fin.is_lt _)
  have h2 := recenter_lt t (buffer.getD (2 * k + 1) 0).val (Fin.is_lt _)
  unfold cell_index
  omega

theorem sum_countP_cells (f : Nat → Nat) (M : Nat) (hf : ∀ k, f k < M) (n : Nat) :
    ∑ cell in Finset.range M, (List.range n).countP (fun k => decide (f k = cell)) = n := by
  induction n with
  | zero => simp
  | succ n ih =>
    simp only [List.range_succ, List.countP_append, List.countP_singleton,
      Finset.sum_add_distrib, ih, decide_eq_true_eq]
    rw [Finset.sum_ite_eq]
    simp [hf n]

/-- C2: for every device variant, every prior histogram content and every raw block of N
byte pairs, `_nrf_process_sample_block` returns and the sum of all 256 * 256 cells of
`iq` is N. -/
theorem C2_histogram_total (c : nrf_h) (fftw_execute : (Nat → ℚ × ℚ) → Nat → ℚ × ℚ)
    (d : nrf_device) (buffer : List (Fin 256)) (N : Nat) (hbuf : 2 * N ≤ buffer.length) :
    ∃ d', _nrf_process_sample_block c fftw_execute d buffer (2 * N) = some d' ∧
      ∑ cell in Finset.range (256 * 256), d'.iq cell = N := by
  have hN : (2 * N + 1) / 2 = N := by omega
  have hr : 2 * ((2 * N + 1) / 2) ≤ buffer.length := by omega
  refine ⟨_, process_sample_block_eq c fftw_execute d buffer (2 * N) hr, ?_⟩
  simp only [after_passes, hN, Nat.zero_add]
  exact sum_countP_cells _ _ (cell_index_lt d.device_type buffer) N

theorem byte_div_256_bounds (v : Nat) (hv : v < 256) :
    (0 : ℚ) ≤ (v : ℚ) / 256 ∧ (v : ℚ) / 256 < 1 := by
  constructor
  · positivity
  · rw [div_lt_one (by norm_num)]
    exact_mod_cast hv

theorem position_fraction (k N : Nat) (hk : k < N) :
    ((2 * k : Nat) : ℚ) / ((2 * N : Nat) : ℚ) = (k : ℚ) / (N : ℚ) ∧
      (0 : ℚ) ≤ (k : ℚ) / (N : ℚ) ∧ (k : ℚ) / (N : ℚ) < 1 := by
  have hN : (0 : ℚ) < (N : ℚ) := by exact_mod_cast (by omega : 0 < N)
  refine ⟨?_, by positivity, ?_⟩
  · push_cast
    rw [mul_div_mul_left _ _ (by norm_num : (2 : ℚ) ≠ 0)]
  · rw [div_lt_one hN]
    exact_mod_cast hk

/-- C3: for every raw block of N byte pairs and every k < N, `_nrf_process_sample_block`
returns and leaves the k-th sample triple equal to (i' / 256, q' / 256, k / N), where
(i', q') is the raw pair (buffer[2k], buffer[2k+1]) when the device is an RTLSDR and
((i + 128) mod 256, (q + 128) mod 256) when it is a HackRF or the dummy; every component
lies in [0, 1). -/
theorem C3_sample_triples (c : nrf_h) (fftw_execute : (Nat → ℚ × ℚ) → Nat → ℚ × ℚ)
    (d : nrf_device) (buffer : List (Fin 256)) (N : Nat) (hbuf : 2 * N ≤ buffer.length) :
    ∃ d', _nrf_process_sample_block c fftw_execute d buffer (2 * N) = some d' ∧
      ∀ k, k < N →
        d'.samples (3 * k)
          = ((if d.device_type = nrf_device_type.NRF_DEVICE_RTLSDR
                then (buffer.getD (2 * k) 0).val
                else ((buffer.getD (2 * k) 0).val + 128) % 256 : Nat) : ℚ) / 256 ∧
        d'.samples (3 * k + 1)
          = ((if d.device_type = nrf_device_type.NRF_DEVICE_RTLSDR
                then (buffer.getD (2 * k + 1) 0).val
                else ((buffer.getD (2 * k + 1) 0).val + 128) % 256 : Nat) : ℚ) / 256 ∧
        d'.samples (3 * k + 2) = (k : ℚ) / (N : ℚ) ∧
        (0 ≤ d'.samples (3 * k) ∧ d'.samples (3 * k) < 1) ∧
        (0 ≤ d'.samples (3 * k + 1) ∧ d'.samples (3 * k + 1) < 1) ∧
        (0 ≤ d'.samples (3 * k + 2) ∧ d'.samples (3 * k + 2) < 1) := by
  have hN : (2 * N + 1) / 2 = N := by omega
  have hr : 2 * ((2 * N + 1) / 2) ≤ buffer.length := by omega
  refine ⟨_, process_sample_block_eq c fftw_execute d buffer (2 * N) hr, ?_⟩
  intro k hk
  have m0 : 3 * k < 3 * N := by omega
  have m1 : 3 * k + 1 < 3 * N := by omega
  have m2 : 3 * k + 2 < 3 * N := by omega
  have a0 : (3 * k) % 3 = 0 := by omega
  have a1 : (3 * k + 1) % 3 = 1 := by omega
  have a2 : (3 * k + 2) % 3 = 2 := by omega
  have b0 : (3 * k) / 3 = k := by omega
  have b1 : (3 * k + 1) / 3 = k := by omega
  have b2 : (3 * k + 2) / 3 = k := by omega
  have s0 : (after_passes (2 * N) buffer { d with iq := fun _ => 0 } ((2 * N + 1) / 2)).samples
      (3 * k) = (recenter d.device_type (buffer.getD (2 * k) 0).val : ℚ) / 256 := by
    simp only [after_passes, hN, m0, if_true, sample_value, a0, b0]
  have s1 : (after_passes (2 * N) buffer { d with iq := fun _ => 0 } ((2 * N + 1) / 2)).samples
      (3 * k + 1) = (recenter d.device_type (buffer.getD (2 * k + 1) 0).val : ℚ) / 256 := by
    simp [after_passes, hN, m1, sample_value, a1, b1]
  have s2 : (after_passes (2 * N) buffer { d with iq := fun _ => 0 } ((2 * N + 1) / 2)).samples
      (3 * k + 2) = ((2 * k : Nat) : ℚ) / ((2 * N : Nat) : ℚ) := by
    simp [after_passes, hN, m2, sample_value, a2, b2]
  obtain ⟨p1, p2, p3⟩ := position_fraction k N hk
  have r0 := byte_div_256_bounds _ (recenter_lt d.device_type _ (Fin.is_lt (buffer.getD (2 * k) 0)))
  have r1 := byte_div_256_bounds _
    (recenter_lt d.device_type _ (Fin.is_lt (buffer.getD (2 * k + 1) 0)))
  show (after_passes _ _ _ _).samples (3 * k) = _ ∧ (after_passes _ _ _ _).samples (3 * k + 1) = _
    ∧ (after_passes _ _ _ _).samples (3 * k + 2) = _
    ∧ (0 ≤ (after_passes _ _ _ _).samples (3 * k) ∧ (after_passes _ _ _ _).samples (3 * k) < 1)
    ∧ (0 ≤ (after_passes _ _ _ _).samples (3 * k + 1)
      ∧ (after_passes _ _ _ _).samples (3 * k + 1) < 1)
    ∧ (0 ≤ (after_passes _ _ _ _).samples (3 * k + 2)
      ∧ (after_passes _ _ _ _).samples (3 * k + 2) < 1)
  rw [s0, s1, s2, p1]
  refine ⟨?_, ?_, rfl, r0, r1, p2, p3⟩
  · rw [recenter_eq]
  · rw [recenter_eq]

/-- C4, the claim as stated fails: a HackRF device that processes the one pair (0, 0)
leaves cell 0 * 256 + 0, the cell of the raw pair, at 0 and counts the pair in cell
128 * 256 + 128. -/
theorem C4_raw_cell_not_incremented :
    ∃ d', _nrf_process_sample_block small_h copy_transform
        (cleared_device nrf_device_type.NRF_DEVICE_HACKRF) [0, 0] 2 = some d' ∧
      d'.iq (0 * 256 + 0) = 0 ∧ d'.iq (128 * 256 + 128) = 1 := by
  refine ⟨_, process_sample_block_eq _ _ _ _ _ (by decide), ?_, ?_⟩
  · simp only [after_passes]
    decide
  · simp only [after_passes]
    decide

/-- C4, amended: for every device variant and every raw block of N byte pairs,
`_nrf_process_sample_block` returns and each histogram cell holds the number of pairs
k < N with i' * 256 + q' equal to the cell, where (i', q') is the pair after recentering,
the same pair the samples are written from: the raw pair for an RTLSDR and
((i + 128) mod 256, (q + 128) mod 256) for a HackRF or the dummy. -/
theorem C4_histogram_cells (c : nrf_h) (fftw_execute : (Nat → ℚ × ℚ) → Nat → ℚ × ℚ)
    (d : nrf_device) (buffer : List (Fin 256)) (N : Nat) (hbuf : 2 * N ≤ buffer.length) :
    ∃ d', _nrf_process_sample_block c fftw_execute d buffer (2 * N) = some d' ∧
      ∀ cell, d'.iq cell = (List.range N).countP (fun k => decide (
        (if d.device_type = nrf_device_type.NRF_DEVICE_RTLSDR
          then (buffer.getD (2 * k) 0).val
          else ((buffer.getD (2 * k) 0).val + 128) % 256) * 256
        + (if d.device_type = nrf_device_type.NRF_DEVICE_RTLSDR
          then (buffer.getD (2 * k + 1) 0).val
          else ((buffer.getD (2 * k + 1) 0).val + 128) % 256) = cell)) := by
  have hN : (2 * N + 1) / 2 = N := by omega
  have hr : 2 * ((2 * N + 1) / 2) ≤ buffer.length := by omega
  refine ⟨_, process_sample_block_eq c fftw_execute d buffer (2 * N) hr, ?_⟩
  intro cell
  simp only [after_passes, hN, Nat.zero_add, cell_index, recenter_eq]

/-- C5, the claim as stated fails: with FFT_SIZE = 2, a block of three pairs writes FFT
input slot 2, which is not below FFT_SIZE: the slot held (0, 0) before the call and holds
(5 / 255, 6 / 255) after it. -/
theorem C5_slot_beyond_fft_size_written :
    ∃ d', _nrf_process_sample_block small_h copy_transform
        (cleared_device nrf_device_type.NRF_DEVICE_RTLSDR) [1, 2, 3, 4, 5, 6] 6 = some d' ∧
      small_h.FFT_SIZE ≤ 2 ∧
      (cleared_device nrf_device_type.NRF_DEVICE_RTLSDR).fft_in 2 = (0, 0) ∧
      d'.fft_in 2 = (5 / 255, 6 / 255) ∧ d'.fft_in 2 ≠ (0, 0) := by
  have key : ∀ x : ℚ × ℚ, x = (5 / 255, 6 / 255) → x = (5 / 255, 6 / 255) ∧ x ≠ (0, 0) := by
    intro x hx
    subst hx
    exact ⟨rfl, by norm_num⟩
  refine ⟨_, process_sample_block_eq _ _ _ _ _ (by decide), by decide, rfl, key _ ?_⟩
  simp [after_passes]
  constructor <;> rfl

/-- C5, amended: for every device variant and every raw block of N byte pairs,
`_nrf_process_sample_block` returns and has written FFT input slot k as
(buffer[2k] / 255, buffer[2k+1] / 255), from the raw bytes, for every k < N, also for
k >= FFT_SIZE; the slots from N on keep their content. -/
theorem C5_fft_input_slots (c : nrf_h) (fftw_execute : (Nat → ℚ × ℚ) → Nat → ℚ × ℚ)
    (d : nrf_device) (buffer : List (Fin 256)) (N : Nat) (hbuf : 2 * N ≤ buffer.length) :
    ∃ d', _nrf_process_sample_block c fftw_execute d buffer (2 * N) = some d' ∧
      (∀ k, k < N → d'.fft_in k
        = (((buffer.getD (2 * k) 0).val : ℚ) / 255, ((buffer.getD (2 * k + 1) 0).val : ℚ) / 255)) ∧
      (∀ k, N ≤ k → d'.fft_in k = d.fft_in k) := by
  have hN : (2 * N + 1) / 2 = N := by omega
  have hr : 2 * ((2 * N + 1) / 2) ≤ buffer.length := by omega
  refine ⟨_, process_sample_block_eq c fftw_execute d buffer (2 * N) hr, ?_, ?_⟩
  · intro k hk
    simp only [after_passes, hN, hk, if_true]
  · intro k hk
    have : ¬ k < N := by omega
    simp only [after_passes, hN, this, if_false]

/-- C10, the claim as stated fails: a device whose `samples` hold 7 everywhere processes a
block of one pair; slot 3, which the block does not write, still holds 7. -/
theorem C10_stale_sample_survives :
    ∃ d', _nrf_process_sample_block small_h copy_transform stale_device [0, 0] 2 = some d' ∧
      3 * 1 ≤ 3 ∧ d'.samples 3 = 7 ∧ d'.samples 3 ≠ 0 := by
  have key : ∀ x : ℚ, x = 7 → x = 7 ∧ x ≠ 0 := by
    intro x hx
    subst hx
    exact ⟨rfl, by norm_num⟩
  refine ⟨_, process_sample_block_eq _ _ _ _ _ (by decide), by decide, key _ ?_⟩
  simp [after_passes, stale_device]

/-- C10, amended: for every prior device state and every raw block of N byte pairs,
`_nrf_process_sample_block` returns and every slot of `samples` that the block did not
write (index >= 3 N) holds what it held before the call. The histogram alone is cleared:
whatever it held before, each cell holds the number of pairs of this block that fall into
it. -/
theorem C10_unwritten_samples_kept (c : nrf_h) (fftw_execute : (Nat → ℚ × ℚ) → Nat → ℚ × ℚ)
    (d : nrf_device) (buffer : List (Fin 256)) (N : Nat) (hbuf : 2 * N ≤ buffer.length) :
    ∃ d', _nrf_process_sample_block c fftw_execute d buffer (2 * N) = some d' ∧
      (∀ m, 3 * N ≤ m → d'.samples m = d.samples m) ∧
      (∀ cell, d'.iq cell = (List.range N).countP (fun k => decide (
        recenter d.device_type (buffer.getD (2 * k) 0).val * 256
          + recenter d.device_type (buffer.getD (2 * k + 1) 0).val = cell))) := by
  have hN : (2 * N + 1) / 2 = N := by omega
  have hr : 2 * ((2 * N + 1) / 2) ≤ buffer.length := by omega
  refine ⟨_, process_sample_block_eq c fftw_execute d buffer (2 * N) hr, ?_, ?_⟩
  · intro m hm
    have : ¬ m < 3 * N := by omega
    simp only [after_passes, hN, this, if_false]
  · intro cell
    simp only [after_passes, hN, Nat.zero_add, cell_index]

theorem dummy_receive_pass_eq (c : nrf_h) (fftw_execute : (Nat → ℚ × ℚ) → Nat → ℚ × ℚ)
    (d : nrf_device) (mem : List (Fin 256)) (hL : c.NRF_BUFFER_LENGTH % 2 = 0)
    (hmem : d.buffer = some mem)
    (hidx : (d.dummy_block_index + 1) * c.NRF_BUFFER_LENGTH ≤ mem.length) :
    ∃ d', dummy_receive_pass c fftw_execute d = some d' ∧
      d'.device_type = d.device_type ∧ d'.receiving = d.receiving ∧ d'.buffer = d.buffer ∧
      d'.dummy_block_length = d.dummy_block_length ∧
      d'.dummy_block_index
        = (if d.dummy_block_index + 1 ≥ d.dummy_block_length then 0
            else d.dummy_block_index + 1) ∧
      _nrf_process_sample_block c fftw_execute d
          (mem.drop (d.dummy_block_index * c.NRF_BUFFER_LENGTH)) c.NRF_BUFFER_LENGTH
        = some { d' with dummy_block_index := d.dummy_block_index } := by
  have hr : 2 * ((c.NRF_BUFFER_LENGTH + 1) / 2)
      ≤ (mem.drop (d.dummy_block_index * c.NRF_BUFFER_LENGTH)).length := by
    have e : (d.dummy_block_index + 1) * c.NRF_BUFFER_LENGTH
        = d.dummy_block_index * c.NRF_BUFFER_LENGTH + c.NRF_BUFFER_LENGTH := by ring
    rw [List.length_drop]
    omega
  have hp := process_sample_block_eq c fftw_execute d _ c.NRF_BUFFER_LENGTH hr
  unfold dummy_receive_pass dummy_block_offset
  rw [hmem]
  simp only []
  rw [hp]
  simp only []
  split
  · rename_i hge
    exact ⟨_, rfl, rfl, rfl, hmem, rfl, (if_pos hge).symm, rfl⟩
  · rename_i hge
    exact ⟨_, rfl, rfl, rfl, hmem, rfl, (if_neg hge).symm, rfl⟩

theorem succ_mod_cycle (n B : Nat) (hB : 0 < B) :
    (if n % B + 1 ≥ B then 0 else n % B + 1) = (n + 1) % B := by
  have hlt : n % B < B := Nat.mod_lt _ hB
  rw [Nat.add_mod]
  by_cases h1 : B = 1
  · subst h1
    simp [Nat.mod_one]
  · have e1 : 1 % B = 1 := Nat.mod_eq_of_lt (by omega)
    rw [e1]
    by_cases hge : n % B + 1 ≥ B
    · have : n % B + 1 = B := by omega
      simp [this]
    · simp only [hge, if_false]
      exact (Nat.mod_eq_of_lt (by omega)).symm

theorem dummy_receive_loop_cycle (c : nrf_h) (fftw_execute : (Nat → ℚ × ℚ) → Nat → ℚ × ℚ)
    (d0 : nrf_device) (mem : List (Fin 256)) (hL : c.NRF_BUFFER_LENGTH % 2 = 0)
    (hmem : d0.buffer = some mem) (hrecv : d0.receiving = true)
    (hB : 0 < d0.dummy_block_length)
    (hsize : d0.dummy_block_length * c.NRF_BUFFER_LENGTH ≤ mem.length)
    (hidx : d0.dummy_block_index = 0) (n : Nat) :
    ∃ d, _nrf_dummy_receive_loop c fftw_execute d0 n
        = some ((List.range n).map
            (fun m => m % d0.dummy_block_length * c.NRF_BUFFER_LENGTH), d) ∧
      d.buffer = some mem ∧ d.receiving = true ∧
      d.dummy_block_length = d0.dummy_block_length ∧
      d.dummy_block_index = n % d0.dummy_block_length ∧
      d.device_type = d0.device_type := by
  induction n with
  | zero =>
    exact ⟨d0, rfl, hmem, hrecv, rfl, by simp [hidx], rfl⟩
  | succ n ih =>
    obtain ⟨d, hd, hbuf, hrc, hlen, hix, hty⟩ := ih
    have hlt : d.dummy_block_index < d0.dummy_block_length := by
      rw [hix]
      exact Nat.mod_lt _ hB
    have hfit : (d.dummy_block_index + 1) * c.NRF_BUFFER_LENGTH ≤ mem.length :=
      le_trans (Nat.mul_le_mul_right _ hlt) hsize
    obtain ⟨d', hp, hty', hrc', hbuf', hlen', hix', -⟩ :=
      dummy_receive_pass_eq c fftw_execute d mem hL hbuf hfit
    refine ⟨d', ?_, hbuf'.trans hbuf, hrc'.trans hrc, hlen'.trans hlen, ?_, hty'.trans hty⟩
    · simp only [_nrf_dummy_receive_loop, hd, hrc, if_true, hp, List.range_succ,
        List.map_append, List.map_cons, List.map_nil, dummy_block_offset, hix]
    · rw [hix', hlen, hix]
      exact succ_mod_cycle n _ hB

theorem process_sample_block_samples (c : nrf_h)
    (fftw_execute : (Nat → ℚ × ℚ) → Nat → ℚ × ℚ) (d d' : nrf_device)
    (buffer : List (Fin 256)) (length : Nat)
    (h : 2 * ((length + 1) / 2) ≤ buffer.length)
    (hd : _nrf_process_sample_block c fftw_execute d buffer length = some d')
    (k : Nat) (hk : k < (length + 1) / 2) :
    d'.samples (3 * k) = (recenter d.device_type (buffer.getD (2 * k) 0).val : ℚ) / 256 ∧
      d'.samples (3 * k + 1)
        = (recenter d.device_type (buffer.getD (2 * k + 1) 0).val : ℚ) / 256 := by
  rw [process_sample_block_eq c fftw_execute d buffer length h] at hd
  have hsm := congrArg nrf_device.samples (Option.some.inj hd)
  have m0 : 3 * k < 3 * ((length + 1) / 2) := by omega
  have m1 : 3 * k + 1 < 3 * ((length + 1) / 2) := by omega
  have a0 : (3 * k) % 3 = 0 := by omega
  have a1 : (3 * k + 1) % 3 = 1 := by omega
  have b0 : (3 * k) / 3 = k := by omega
  have b1 : (3 * k + 1) / 3 = k := by omega
  have e0 := congrFun hsm (3 * k)
  have e1 := congrFun hsm (3 * k + 1)
  simp only [after_passes, m0, m1, if_true, sample_value, a0, a1, b0, b1] at e0 e1
  constructor
  · rw [← e0]
  · rw [← e1]
    simp

/-- C7: a dummy device started on a fallback file that holds B >= 1 whole blocks
(B = file size div NRF_BUFFER_LENGTH, the block length a whole number of byte pairs)
runs every pass of `_nrf_dummy_receive_loop`. Before pass n (n = 0, 1, 2, ...) the passes
so far have handed over the byte offsets (m mod B) * NRF_BUFFER_LENGTH, m < n, and the
block index is n mod B, below B. Pass n hands over offset (n mod B) * NRF_BUFFER_LENGTH:
the device it leaves is the one `_nrf_process_sample_block` computes from the bytes of
the file that start at block n mod B, its samples are the recentered bytes of that block,
and its block index is (n + 1) mod B, again below B. For B = 2 the blocks are
0, 1, 0, 1, ... -/
theorem C7_dummy_block_cycle (c : nrf_h) (v : vendor)
    (fftw_execute : (Nat → ℚ × ℚ) → Nat → ℚ × ℚ) (device : nrf_device) (name : String)
    (content : List (Fin 256)) (n : Nat)
    (hfile : v.fopen name = some content)
    (hL : c.NRF_BUFFER_LENGTH % 2 = 0)
    (hB : 1 ≤ content.length / c.NRF_BUFFER_LENGTH) :
    ∃ log d d',
      _nrf_dummy_receive_loop c fftw_execute (_nrf_dummy_start c v device (some name)).2 n
        = some (log, d) ∧
      log = (List.range n).map
        (fun m => m % (content.length / c.NRF_BUFFER_LENGTH) * c.NRF_BUFFER_LENGTH) ∧
      d.dummy_block_index = n % (content.length / c.NRF_BUFFER_LENGTH) ∧
      d.dummy_block_index < content.length / c.NRF_BUFFER_LENGTH ∧
      _nrf_dummy_receive_loop c fftw_execute (_nrf_dummy_start c v device (some name)).2
          (n + 1)
        = some (log ++ [n % (content.length / c.NRF_BUFFER_LENGTH) * c.NRF_BUFFER_LENGTH],
            d') ∧
      _nrf_process_sample_block c fftw_execute d
          (content.drop (n % (content.length / c.NRF_BUFFER_LENGTH) * c.NRF_BUFFER_LENGTH))
          c.NRF_BUFFER_LENGTH
        = some { d' with dummy_block_index := d.dummy_block_index } ∧
      (∀ k, 2 * k + 1 < c.NRF_BUFFER_LENGTH →
        d'.samples (3 * k)
          = ((((content.getD (n % (content.length / c.NRF_BUFFER_LENGTH)
                * c.NRF_BUFFER_LENGTH + 2 * k) 0).val + 128) % 256 : Nat) : ℚ) / 256 ∧
        d'.samples (3 * k + 1)
          = ((((content.getD (n % (content.length / c.NRF_BUFFER_LENGTH)
                * c.NRF_BUFFER_LENGTH + 2 * k + 1) 0).val + 128) % 256 : Nat) : ℚ) / 256) ∧
      d'.dummy_block_index = (n + 1) % (content.length / c.NRF_BUFFER_LENGTH) ∧
      d'.dummy_block_index < content.length / c.NRF_BUFFER_LENGTH := by
  have hs : (_nrf_dummy_start c v device (some name)).2
      = { device with
          device_type := nrf_device_type.NRF_DEVICE_DUMMY
          buffer := some content
          dummy_block_length := content.length / c.NRF_BUFFER_LENGTH
          dummy_block_index := 0
          receiving := true } := by
    simp only [_nrf_dummy_start, hfile]
  rw [hs]
  obtain ⟨d, hd, hbuf, hrc, hlen, hix, hty⟩ := dummy_receive_loop_cycle c fftw_execute
    { device with
      device_type := nrf_device_type.NRF_DEVICE_DUMMY
      buffer := some content
      dummy_block_length := content.length / c.NRF_BUFFER_LENGTH
      dummy_block_index := 0
      receiving := true }
    content hL rfl rfl hB (Nat.div_mul_le_self _ _) rfl n
  have hlt : d.dummy_block_index < content.length / c.NRF_BUFFER_LENGTH := by
    rw [hix]
    exact Nat.mod_lt _ hB
  have hfit : (d.dummy_block_index + 1) * c.NRF_BUFFER_LENGTH ≤ content.length :=
    le_trans (Nat.mul_le_mul_right _ hlt) (Nat.div_mul_le_self _ _)
  obtain ⟨d', hp, -, -, -, -, hix', hproc⟩ :=
    dummy_receive_pass_eq c fftw_execute d content hL hbuf hfit
  have hix1 : d'.dummy_block_index = (n + 1) % (content.length / c.NRF_BUFFER_LENGTH) := by
    rw [hix', hlen, hix]
    exact succ_mod_cycle n _ hB
  have hroom : 2 * ((c.NRF_BUFFER_LENGTH + 1) / 2)
      ≤ (content.drop (d.dummy_block_index * c.NRF_BUFFER_LENGTH)).length := by
    have e : (d.dummy_block_index + 1) * c.NRF_BUFFER_LENGTH
        = d.dummy_block_index * c.NRF_BUFFER_LENGTH + c.NRF_BUFFER_LENGTH := by ring
    rw [List.length_drop]
    omega
  refine ⟨_, d, d', hd, rfl, hix, hlt, ?_, ?_, ?_, hix1, ?_⟩
  · simp only [_nrf_dummy_receive_loop, hd, hrc, if_true, hp, dummy_block_offset, hix]
  · rw [← hix]
    exact hproc
  · intro k hk
    obtain ⟨s0, s1⟩ := process_sample_block_samples c fftw_execute d _ _ _ hroom hproc k
      (by omega)
    have hty' : d.device_type = nrf_device_type.NRF_DEVICE_DUMMY := hty
    have g0 : (content.drop (d.dummy_block_index * c.NRF_BUFFER_LENGTH)).getD (2 * k) 0
        = content.getD (d.dummy_block_index * c.NRF_BUFFER_LENGTH + 2 * k) 0 := by
      simp only [List.getD_eq_getElem?_getD, List.getElem?_drop]
    have g1 : (content.drop (d.dummy_block_index * c.NRF_BUFFER_LENGTH)).getD (2 * k + 1) 0
        = content.getD (d.dummy_block_index * c.NRF_BUFFER_LENGTH + 2 * k + 1) 0 := by
      simp only [List.getD_eq_getElem?_getD, List.getElem?_drop, Nat.add_assoc]
    rw [g0, hty', hix] at s0
    rw [g1, hty', hix] at s1
    exact ⟨by simpa [recenter] using s0, by simpa [recenter] using s1⟩
  · rw [hix1]
    exact Nat.mod_lt _ hB

theorem rtlsdr_start_opened (c : nrf_h) (v : vendor) (d : nrf_device)
    (h : v.rtlsdr_open = 0) :
    _nrf_rtlsdr_start c v d
      = if v.rtlsdr_set_sample_rate = 0 ∧ v.rtlsdr_set_tuner_gain_mode = 0 ∧
            v.rtlsdr_set_agc_mode = 0 ∧ v.rtlsdr_set_center_freq = 0 ∧
            v.rtlsdr_reset_buffer = 0 then
          some (0, { d with
            device_type := nrf_device_type.NRF_DEVICE_RTLSDR
            buffer := some (List.replicate c.NRF_BUFFER_LENGTH 0)
            receiving := true })
        else none := by
  unfold _nrf_rtlsdr_start
  split_ifs <;> simp_all

theorem rtlsdr_start_not_opened (c : nrf_h) (v : vendor) (d : nrf_device)
    (h : v.rtlsdr_open ≠ 0) : _nrf_rtlsdr_start c v d = some (v.rtlsdr_open, d) := by
  unfold _nrf_rtlsdr_start
  rw [if_pos h]

theorem hackrf_start_opened (v : vendor) (d : nrf_device) (hi : v.hackrf_init = 0)
    (h : v.hackrf_open = 0) :
    _nrf_hackrf_start v d
      = if v.hackrf_set_freq = 0 ∧ v.hackrf_set_sample_rate = 0 ∧
            v.hackrf_set_amp_enable = 0 ∧ v.hackrf_set_lna_gain = 0 ∧
            v.hackrf_set_vga_gain = 0 ∧ v.hackrf_start_rx = 0 then
          some (0, { d with
            device_type := nrf_device_type.NRF_DEVICE_HACKRF
            receiving := true })
        else none := by
  unfold _nrf_hackrf_start
  split_ifs <;> simp_all

theorem hackrf_start_not_opened (v : vendor) (d : nrf_device) (hi : v.hackrf_init = 0)
    (h : v.hackrf_open ≠ 0) : _nrf_hackrf_start v d = some (v.hackrf_open, d) := by
  unfold _nrf_hackrf_start
  simp [hi, h]

theorem hackrf_start_no_init (v : vendor) (d : nrf_device) (hi : v.hackrf_init ≠ 0) :
    _nrf_hackrf_start v d = none := by
  unfold _nrf_hackrf_start
  simp [hi]

theorem device_new_no_hardware (c : nrf_h) (v : vendor) (tag0 : nrf_device_type)
    (fft_in fft_out : Nat → ℚ × ℚ) (data_file : Option String)
    (hr : v.rtlsdr_open ≠ 0) (hi : v.hackrf_init = 0) (hh : v.hackrf_open ≠ 0) :
    nrf_device_new c v tag0 fft_in fft_out data_file
      = ([backend.rtlsdr, backend.hackrf, backend.dummy],
          some (_nrf_dummy_start c v (nrf_device_alloc c tag0 fft_in fft_out) data_file).2) := by
  simp only [nrf_device_new, rtlsdr_start_not_opened c v _ hr,
    hackrf_start_not_opened v _ hi hh]
  simp [hr, hh]

theorem dummy_start_type (c : nrf_h) (v : vendor) (d : nrf_device) (data_file : Option String) :
    (_nrf_dummy_start c v d data_file).2.device_type = nrf_device_type.NRF_DEVICE_DUMMY ∧
      (_nrf_dummy_start c v d data_file).2.receiving = true := by
  unfold _nrf_dummy_start
  cases data_file with
  | none => exact ⟨rfl, rfl⟩
  | some name =>
    cases h : v.fopen name with
    | none => simp [h]
    | some content => simp [h]

/-- C8: `nrf_device_new` selects the backend in fixed priority. The device it returns
carries the tag RTLSDR if and only if the RTLSDR open succeeded, the tag HackRF if and
only if the RTLSDR open failed and the HackRF open succeeded, and the tag dummy if and
only if both opens failed. It returns a device exactly when no status check of the
selected backend exits the process. The HackRF start is called if and only if the RTLSDR
open failed, and the dummy start if and only if the HackRF open was reached and failed
as well, so no later backend is tried once an earlier one has opened. -/
theorem C8_backend_priority (c : nrf_h) (v : vendor) (tag0 : nrf_device_type)
    (fft_in fft_out : Nat → ℚ × ℚ) (data_file : Option String) :
    (∀ dev, (nrf_device_new c v tag0 fft_in fft_out data_file).2 = some dev →
      (dev.device_type = nrf_device_type.NRF_DEVICE_RTLSDR ↔ v.rtlsdr_open = 0) ∧
      (dev.device_type = nrf_device_type.NRF_DEVICE_HACKRF
        ↔ (v.rtlsdr_open ≠ 0 ∧ v.hackrf_open = 0)) ∧
      (dev.device_type = nrf_device_type.NRF_DEVICE_DUMMY
        ↔ (v.rtlsdr_open ≠ 0 ∧ v.hackrf_open ≠ 0))) ∧
    ((∃ dev, (nrf_device_new c v tag0 fft_in fft_out data_file).2 = some dev) ↔
      ((v.rtlsdr_open = 0 ∧ v.rtlsdr_set_sample_rate = 0 ∧ v.rtlsdr_set_tuner_gain_mode = 0 ∧
          v.rtlsdr_set_agc_mode = 0 ∧ v.rtlsdr_set_center_freq = 0 ∧
          v.rtlsdr_reset_buffer = 0) ∨
        (v.rtlsdr_open ≠ 0 ∧ v.hackrf_init = 0 ∧ v.hackrf_open = 0 ∧ v.hackrf_set_freq = 0 ∧
          v.hackrf_set_sample_rate = 0 ∧ v.hackrf_set_amp_enable = 0 ∧
          v.hackrf_set_lna_gain = 0 ∧ v.hackrf_set_vga_gain = 0 ∧ v.hackrf_start_rx = 0) ∨
        (v.rtlsdr_open ≠ 0 ∧ v.hackrf_init = 0 ∧ v.hackrf_open ≠ 0))) ∧
    (backend.rtlsdr ∈ (nrf_device_new c v tag0 fft_in fft_out data_file).1) ∧
    (backend.hackrf ∈ (nrf_device_new c v tag0 fft_in fft_out data_file).1
      ↔ v.rtlsdr_open ≠ 0) ∧
    (backend.dummy ∈ (nrf_device_new c v tag0 fft_in fft_out data_file).1
      ↔ (v.rtlsdr_open ≠ 0 ∧ v.hackrf_init = 0 ∧ v.hackrf_open ≠ 0)) := by
  by_cases hr : v.rtlsdr_open = 0
  · have e : nrf_device_new c v tag0 fft_in fft_out data_file
        = ([backend.rtlsdr], (_nrf_rtlsdr_start c v
            (nrf_device_alloc c tag0 fft_in fft_out)).map Prod.snd) := by
      simp only [nrf_device_new, rtlsdr_start_opened c v _ hr]
      split_ifs <;> simp
    rw [e, rtlsdr_start_opened c v _ hr]
    split_ifs with hc
    · simp [hr, hc]
    · simp [hr, hc]
  · by_cases hi : v.hackrf_init = 0
    · by_cases hh : v.hackrf_open = 0
      · have e : nrf_device_new c v tag0 fft_in fft_out data_file
            = ([backend.rtlsdr, backend.hackrf], (_nrf_hackrf_start v
                (nrf_device_alloc c tag0 fft_in fft_out)).map Prod.snd) := by
          simp only [nrf_device_new, rtlsdr_start_not_opened c v _ hr,
            hackrf_start_opened v _ hi hh]
          split_ifs <;> simp [hr]
        rw [e, hackrf_start_opened v _ hi hh]
        split_ifs with hc
        · simp [hr, hi, hh, hc]
        · simp [hr, hi, hh, hc]
      · rw [device_new_no_hardware c v tag0 fft_in fft_out data_file hr hi hh]
        have ht := (dummy_start_type c v (nrf_device_alloc c tag0 fft_in fft_out) data_file).1
        simp [hr, hi, hh, ht]
    · have e : nrf_device_new c v tag0 fft_in fft_out data_file
          = ([backend.rtlsdr, backend.hackrf], none) := by
        simp only [nrf_device_new, rtlsdr_start_not_opened c v _ hr,
          hackrf_start_no_init v _ hi]
        simp [hr]
      rw [e]
      simp [hr, hi]

theorem sample_block_loop_short (length : Nat) (buffer : List (Fin 256))
    (s0 : sample_loop_state) (n : Nat) (h : buffer.length < 2 * (n + 1)) :
    sample_block_loop length buffer s0 (n + 1) = none := by
  have h1 : buffer[2 * n + 1]? = none := List.getElem?_eq_none (by omega)
  simp only [sample_block_loop]
  cases sample_block_loop length buffer s0 n with
  | none => rfl
  | some s =>
    simp only [sample_block_body, h1]
    cases buffer[2 * n]? <;> rfl

theorem process_sample_block_short (c : nrf_h) (fftw_execute : (Nat → ℚ × ℚ) → Nat → ℚ × ℚ)
    (d : nrf_device) (buffer : List (Fin 256)) (length : Nat)
    (h : buffer.length < length) :
    _nrf_process_sample_block c fftw_execute d buffer length = none := by
  have hfor := sample_block_for_eq_loop length buffer ⟨0, 0, { d with iq := fun _ => 0 }⟩
    (length + 1) 0 _ (Nat.zero_le _) (by omega) rfl
  obtain ⟨n, hn⟩ : ∃ n, (length + 1) / 2 = n + 1 := ⟨(length + 1) / 2 - 1, by omega⟩
  have hnone := sample_block_loop_short length buffer ⟨0, 0, { d with iq := fun _ => 0 }⟩ n
    (by omega)
  simp only [_nrf_process_sample_block]
  rw [hfor, hn, hnone]

theorem dummy_short_file (c : nrf_h) (v : vendor)
    (fftw_execute : (Nat → ℚ × ℚ) → Nat → ℚ × ℚ) (device : nrf_device) (name : String)
    (content : List (Fin 256)) (hfile : v.fopen name = some content)
    (hshort : content.length < c.NRF_BUFFER_LENGTH) :
    (_nrf_dummy_start c v device (some name)).2.receiving = true ∧
      (_nrf_dummy_start c v device (some name)).2.buffer = some content ∧
      (_nrf_dummy_start c v device (some name)).2.dummy_block_length = 0 ∧
      dummy_block_offset c (_nrf_dummy_start c v device (some name)).2 = 0 ∧
      dummy_receive_pass c fftw_execute (_nrf_dummy_start c v device (some name)).2 = none := by
  have hs : (_nrf_dummy_start c v device (some name)).2
      = { device with
          device_type := nrf_device_type.NRF_DEVICE_DUMMY
          buffer := some content
          dummy_block_length := content.length / c.NRF_BUFFER_LENGTH
          dummy_block_index := 0
          receiving := true } := by
    simp only [_nrf_dummy_start, hfile]
  rw [hs]
  refine ⟨rfl, rfl, Nat.div_eq_of_lt hshort, ?_, ?_⟩
  · simp [dummy_block_offset]
  · simp only [dummy_receive_pass, dummy_block_offset, Nat.zero_mul, List.drop_zero]
    rw [process_sample_block_short c fftw_execute _ content _ hshort]

/-- C9, the code at a fallback file of one byte, with a block length of 4: the file holds
0 whole blocks, the loop is running, the offset handed to the sample processor is 0,
which is not below 0 * 4, and the pass reads past the one loaded byte. -/
theorem C9_short_file_read_past_end :
    short_file_device.receiving = true ∧
      short_file_device.buffer = some [7] ∧
      short_file_device.dummy_block_length = 0 ∧
      dummy_block_offset small_h short_file_device = 0 ∧
      ¬ (dummy_block_offset small_h short_file_device < (1 / small_h.NRF_BUFFER_LENGTH)
          * small_h.NRF_BUFFER_LENGTH) ∧
      dummy_receive_pass small_h copy_transform short_file_device = none := by
  obtain ⟨h1, h2, h3, h4, h5⟩ := dummy_short_file small_h (no_hardware (some [7]))
    copy_transform (cleared_device nrf_device_type.NRF_DEVICE_DUMMY) "short.raw" [7] rfl
    (by decide)
  exact ⟨h1, h2, h3, h4, by decide, h5⟩

/-- C2 at a concrete input: a HackRF device and a block of two pairs. -/
theorem C2_histogram_total_witness :
    2 * 2 ≤ two_pairs.length ∧
    ∃ d', _nrf_process_sample_block small_h copy_transform
        (cleared_device nrf_device_type.NRF_DEVICE_HACKRF) two_pairs (2 * 2) = some d' ∧
      ∑ cell in Finset.range (256 * 256), d'.iq cell = 2 :=
  ⟨by decide, C2_histogram_total small_h copy_transform
    (cleared_device nrf_device_type.NRF_DEVICE_HACKRF) two_pairs 2 (by decide)⟩

/-- C3 at a concrete input: a dummy device and a block of two pairs. -/
theorem C3_sample_triples_witness :
    2 * 2 ≤ two_pairs.length ∧
    ∃ d', _nrf_process_sample_block small_h copy_transform
        (cleared_device nrf_device_type.NRF_DEVICE_DUMMY) two_pairs (2 * 2) = some d' ∧
      ∀ k, k < 2 →
        d'.samples (3 * k)
          = ((if (cleared_device nrf_device_type.NRF_DEVICE_DUMMY).device_type
                  = nrf_device_type.NRF_DEVICE_RTLSDR
                then (two_pairs.getD (2 * k) 0).val
                else ((two_pairs.getD (2 * k) 0).val + 128) % 256 : Nat) : ℚ) / 256 ∧
        d'.samples (3 * k + 1)
          = ((if (cleared_device nrf_device_type.NRF_DEVICE_DUMMY).device_type
                  = nrf_device_type.NRF_DEVICE_RTLSDR
                then (two_pairs.getD (2 * k + 1) 0).val
                else ((two_pairs.getD (2 * k + 1) 0).val + 128) % 256 : Nat) : ℚ) / 256 ∧
        d'.samples (3 * k + 2) = (k : ℚ) / ((2 : Nat) : ℚ) ∧
        (0 ≤ d'.samples (3 * k) ∧ d'.samples (3 * k) < 1) ∧
        (0 ≤ d'.samples (3 * k + 1) ∧ d'.samples (3 * k + 1) < 1) ∧
        (0 ≤ d'.samples (3 * k + 2) ∧ d'.samples (3 * k + 2) < 1) :=
  ⟨by decide, C3_sample_triples small_h copy_transform
    (cleared_device nrf_device_type.NRF_DEVICE_DUMMY) two_pairs 2 (by decide)⟩

/-- C4, amended, at a concrete input: a HackRF device and a block of two pairs. -/
theorem C4_histogram_cells_witness :
    2 * 2 ≤ two_pairs.length ∧
    ∃ d', _nrf_process_sample_block small_h copy_transform
        (cleared_device nrf_device_type.NRF_DEVICE_HACKRF) two_pairs (2 * 2) = some d' ∧
      ∀ cell, d'.iq cell = (List.range 2).countP (fun k => decide (
        (if (cleared_device nrf_device_type.NRF_DEVICE_HACKRF).device_type
            = nrf_device_type.NRF_DEVICE_RTLSDR
          then (two_pairs.getD (2 * k) 0).val
          else ((two_pairs.getD (2 * k) 0).val + 128) % 256) * 256
        + (if (cleared_device nrf_device_type.NRF_DEVICE_HACKRF).device_type
            = nrf_device_type.NRF_DEVICE_RTLSDR
          then (two_pairs.getD (2 * k + 1) 0).val
          else ((two_pairs.getD (2 * k + 1) 0).val + 128) % 256) = cell)) :=
  ⟨by decide, C4_histogram_cells small_h copy_transform
    (cleared_device nrf_device_type.NRF_DEVICE_HACKRF) two_pairs 2 (by decide)⟩

/-- C5, amended, at a concrete input: FFT_SIZE = 2 and a block of two pairs. -/
theorem C5_fft_input_slots_witness :
    2 * 2 ≤ two_pairs.length ∧
    ∃ d', _nrf_process_sample_block small_h copy_transform stale_device two_pairs (2 * 2)
        = some d' ∧
      (∀ k, k < 2 → d'.fft_in k
        = (((two_pairs.getD (2 * k) 0).val : ℚ) / 255,
            ((two_pairs.getD (2 * k + 1) 0).val : ℚ) / 255)) ∧
      (∀ k, 2 ≤ k → d'.fft_in k = stale_device.fft_in k) :=
  ⟨by decide, C5_fft_input_slots small_h copy_transform stale_device two_pairs 2 (by decide)⟩

/-- C10, amended, at a concrete input: the dirty device and a block of two pairs. -/
theorem C10_unwritten_samples_kept_witness :
    2 * 2 ≤ two_pairs.length ∧
    ∃ d', _nrf_process_sample_block small_h copy_transform stale_device two_pairs (2 * 2)
        = some d' ∧
      (∀ m, 3 * 2 ≤ m → d'.samples m = stale_device.samples m) ∧
      (∀ cell, d'.iq cell = (List.range 2).countP (fun k => decide (
        recenter stale_device.device_type (two_pairs.getD (2 * k) 0).val * 256
          + recenter stale_device.device_type (two_pairs.getD (2 * k + 1) 0).val = cell))) :=
  ⟨by decide, C10_unwritten_samples_kept small_h copy_transform stale_device two_pairs 2
    (by decide)⟩


/-- C1, the code at a waterfall of three different rows of two bins and a block of two
pairs: the ascending copy of line 66 has overwritten row 1 with row 0 before it reads
row 1, so after the call rows 1 and 2 both hold the old row 0. Row 2 is (1,0,0), (2,0,0)
where the claim asks for the old row 1, (3,0,0), (4,0,0), which is lost. -/
theorem C1_overlapping_memcpy_repeats_row :
    ∃ d', _nrf_process_sample_block small_h copy_transform history_device unit_pairs 4
        = some d' ∧
      d'.fft = [⟨1, 0, 0⟩, ⟨0, 1, 1 / 2⟩, ⟨1, 0, 0⟩, ⟨2, 0, 0⟩, ⟨1, 0, 0⟩, ⟨2, 0, 0⟩] ∧
      d'.fft[2 * small_h.FFT_SIZE + 0]? = some ⟨1, 0, 0⟩ ∧
      history_device.fft[(2 - 1) * small_h.FFT_SIZE + 0]? = some ⟨3, 0, 0⟩ ∧
      d'.fft[2 * small_h.FFT_SIZE + 0]? ≠ history_device.fft[(2 - 1) * small_h.FFT_SIZE + 0]? := by
  have key : ∀ l : List vec3,
      l = [⟨1, 0, 0⟩, ⟨0, 1, 1 / 2⟩, ⟨1, 0, 0⟩, ⟨2, 0, 0⟩, ⟨1, 0, 0⟩, ⟨2, 0, 0⟩] →
      l = [⟨1, 0, 0⟩, ⟨0, 1, 1 / 2⟩, ⟨1, 0, 0⟩, ⟨2, 0, 0⟩, ⟨1, 0, 0⟩, ⟨2, 0, 0⟩] ∧
      l[2 * small_h.FFT_SIZE + 0]? = some ⟨1, 0, 0⟩ ∧
      history_device.fft[(2 - 1) * small_h.FFT_SIZE + 0]? = some ⟨3, 0, 0⟩ ∧
      l[2 * small_h.FFT_SIZE + 0]? ≠ history_device.fft[(2 - 1) * small_h.FFT_SIZE + 0]? := by
    intro l hl
    subst hl
    refine ⟨rfl, rfl, rfl, ?_⟩
    simp [small_h, history_device]
  refine ⟨_, process_sample_block_eq _ _ _ _ _ (by decide), key _ ?_⟩
  simp [first_line_loop, memcpy, after_passes, small_h, history_device, cleared_device,
    copy_transform, unit_pairs, vec3_init]
  have h255 : (((255 : Fin 256) : ℕ) : ℚ) = 255 := rfl
  rw [h255]
  norm_num

theorem dummy_null_buffer (c : nrf_h) (v : vendor)
    (fftw_execute : (Nat → ℚ × ℚ) → Nat → ℚ × ℚ) (device : nrf_device)
    (hbuf : device.buffer = none) (hL : 0 < c.NRF_BUFFER_LENGTH) :
    (_nrf_dummy_start c v device none).2.device_type = nrf_device_type.NRF_DEVICE_DUMMY ∧
      (_nrf_dummy_start c v device none).2.receiving = true ∧
      (_nrf_dummy_start c v device none).2.buffer = none ∧
      dummy_receive_pass c fftw_execute (_nrf_dummy_start c v device none).2 = none := by
  have hs : (_nrf_dummy_start c v device none).2
      = { device with
          device_type := nrf_device_type.NRF_DEVICE_DUMMY
          receiving := true } := rfl
  rw [hs]
  refine ⟨rfl, rfl, hbuf, ?_⟩
  simp only [dummy_receive_pass, hbuf, List.drop_nil]
  rw [process_sample_block_short c fftw_execute _ [] _ hL]

/-- C6, the code when neither the RTLSDR nor the HackRF opens and no fallback file is
given, with a block length of 4: `nrf_device_new` returns a running dummy device, but
its block buffer is the null pointer that `calloc` left, not a zero-filled buffer, and
the first pass of the dummy loop reads outside it, so no first block is processed. -/
theorem C6_no_file_null_buffer :
    ∃ dev, nrf_device_new small_h (no_hardware none) nrf_device_type.NRF_DEVICE_DUMMY
          (fun _ => (0, 0)) (fun _ => (0, 0)) none
        = ([backend.rtlsdr, backend.hackrf, backend.dummy], some dev) ∧
      dev.device_type = nrf_device_type.NRF_DEVICE_DUMMY ∧ dev.receiving = true ∧
      dev.buffer = none ∧
      dev.buffer ≠ some (List.replicate small_h.NRF_BUFFER_LENGTH 0) ∧
      dummy_receive_pass small_h copy_transform dev = none := by
  obtain ⟨h1, h2, h3, h4⟩ := dummy_null_buffer small_h (no_hardware none) copy_transform
    (nrf_device_alloc small_h nrf_device_type.NRF_DEVICE_DUMMY (fun _ => (0, 0))
      (fun _ => (0, 0))) rfl (by decide)
  refine ⟨_, device_new_no_hardware small_h (no_hardware none) _ _ _ none (by decide) rfl
    (by decide), h1, h2, h3, ?_, h4⟩
  rw [h3]
  exact fun h => Option.noConfusion h

/-- C7 at a concrete input: a fallback file of two blocks of four bytes and one byte more.
The first three passes hand over the offsets 0, 4, 0; pass 3 hands over offset 4, the
start of block 1, and the first sample it leaves is the recentered first byte of block 1,
(5 + 128) / 256; the block index is then back at 0. -/
theorem C7_dummy_block_cycle_witness :
    ((no_hardware (some two_block_file)).fopen "blocks.raw" = some two_block_file ∧
      small_h.NRF_BUFFER_LENGTH % 2 = 0 ∧
      1 ≤ two_block_file.length / small_h.NRF_BUFFER_LENGTH) ∧
    ∃ d d', _nrf_dummy_receive_loop small_h copy_transform
        (_nrf_dummy_start small_h (no_hardware (some two_block_file))
          (cleared_device nrf_device_type.NRF_DEVICE_RTLSDR) (some "blocks.raw")).2 3
        = some ([0, 4, 0], d) ∧
      d.dummy_block_index = 1 ∧
      _nrf_dummy_receive_loop small_h copy_transform
        (_nrf_dummy_start small_h (no_hardware (some two_block_file))
          (cleared_device nrf_device_type.NRF_DEVICE_RTLSDR) (some "blocks.raw")).2 4
        = some ([0, 4, 0, 4], d') ∧
      _nrf_process_sample_block small_h copy_transform d (two_block_file.drop 4) 4
        = some { d' with dummy_block_index := d.dummy_block_index } ∧
      d'.samples (3 * 0) = (((5 + 128) % 256 : Nat) : ℚ) / 256 ∧
      d'.samples (3 * 1 + 1) = (((8 + 128) % 256 : Nat) : ℚ) / 256 ∧
      d'.dummy_block_index = 0 := by
  refine ⟨⟨rfl, by decide, by decide⟩, ?_⟩
  obtain ⟨log, d, d', h1, hlog, hix, -, h2, hproc, hs, hix', -⟩ :=
    C7_dummy_block_cycle small_h (no_hardware (some two_block_file)) copy_transform
      (cleared_device nrf_device_type.NRF_DEVICE_RTLSDR) "blocks.raw" two_block_file 3
      rfl (by decide) (by decide)
  subst hlog
  exact ⟨d, d', h1, hix, h2, hproc, (hs 0 (by decide)).1, (hs 1 (by decide)).2, hix'⟩

end Frequensea
